import Mathlib

/-!
Verification development for the citation-aware response formatter of the
`sarah_streamlit` repository.

The embedding models three source routines over `List Char` strings:

* `process_claude_response` (src/sarah_streamlit/testing_app.py) — the batch
  formatter: numbered ` [n]` markers and a response-wide `**References**`
  section, deduplicated through a string-keyed ledger;
* `format_citations` (src/sarah_streamlit/chat.py, `ClaudeClient`) — bracketed
  `[title]` markers and a per-block `**References:**` section;
* `handle_streaming_response` (src/sarah_streamlit/app.py) — the streaming
  driver, which re-derives the open block through `format_citations` after
  every delta.

Python strings are modelled as `List Char`; a missing attribute or dict key is
modelled as an `Option` field holding `none` (the `getattr`/`dict.get` default
then applies); Python's stable `sorted` is modelled by `List.insertionSort`
with a non-strict total relation, which computes the unique stable sort.
Fallible operations (`text_blocks[-1]` on an empty list) return `Option`.
-/

/-- Python strings, modelled as lists of characters. -/
abbrev Str := List Char

/-- The characters stripped by Python's `str.strip()` (ASCII whitespace). -/
def isPySpace (c : Char) : Bool :=
  c == ' ' || c == '\t' || c == '\n' || c == '\r' || c == Char.ofNat 11 || c == Char.ofNat 12

/-- Python `s.strip()`: drop whitespace from both ends. -/
def pyStrip (s : Str) : Str :=
  ((s.dropWhile isPySpace).reverse.dropWhile isPySpace).reverse

/-- Python `s.replace('\u0002', '')`: remove every STX control character. -/
def removeSTX (s : Str) : Str :=
  s.filter (fun c => c != Char.ofNat 2)

/-- Python `s.startswith(pat)` on character lists. -/
def startsWithChars : Str → Str → Bool
  | [], _ => true
  | _ :: _, [] => false
  | p :: ps, c :: cs => p == c && startsWithChars ps cs

/-- Python `hay.find(needle)` restricted to a found/not-found answer:
first index at which `needle` occurs in `hay`, if any. -/
def findSub (needle : Str) : Str → Option Nat
  | [] => if startsWithChars needle [] then some 0 else none
  | c :: t =>
    if startsWithChars needle (c :: t) then some 0
    else (findSub needle (t : Str)).map (· + 1)

/-- Fuel-driven worker for `pyReplaceDel`. -/
def pyReplaceDelGo (pat : Str) : Nat → Str → Str
  | _, [] => []
  | 0, s => s
  | fuel + 1, c :: t =>
    if startsWithChars pat (c :: t) then pyReplaceDelGo pat fuel (t.drop (pat.length - 1))
    else c :: pyReplaceDelGo pat fuel t

/-- Python `s.replace(pat, '')` for a non-empty `pat`: delete every
non-overlapping occurrence, scanning left to right. -/
def pyReplaceDel (pat s : Str) : Str :=
  pyReplaceDelGo pat s.length s

/-- The remainder of `s` after its first newline, if `s` has one. -/
def afterNL : Str → Option Str
  | [] => none
  | c :: t => if c = '\n' then some t else afterNL t

/-- Python `s.split('\n', 2)[-1]`: everything after the second newline when
`s` has at least two, after the first when it has exactly one, `s` itself
otherwise. -/
def split2last (s : Str) : Str :=
  match afterNL s with
  | none => s
  | some r =>
    match afterNL r with
    | none => r
    | some r2 => r2

/-- Worker for `pyWords`, accumulating the current word reversed. -/
def pyWordsGo (cur : Str) : Str → List Str
  | [] => if cur = [] then [] else [cur.reverse]
  | c :: t =>
    if isPySpace c then
      if cur = [] then pyWordsGo [] t else cur.reverse :: pyWordsGo [] t
    else pyWordsGo (c :: cur) t

/-- Python `s.split()` with no arguments: split on whitespace runs, dropping
empty fragments. -/
def pyWords (s : Str) : List Str := pyWordsGo [] s

/-- Python `' '.join(s.split())`: collapse whitespace runs to single spaces. -/
def normSpaces (s : Str) : Str := List.intercalate [' '] (pyWords s)

/-- Python slice clamping: the effective index of `s[:i]`/`s[i:]` for a string
of length `n`, including the negative-index convention. -/
def sliceIdx (i : Int) (n : Nat) : Nat :=
  if i < 0 then (n + i).toNat else min i.toNat n

/-- A page number held by a reference entry: either the integer taken from
citation metadata or the digit string parsed out of a `[Page N]` marker. -/
abbrev PageVal := Int ⊕ Str

/-- Python truthiness of the optional page value (`if ref['page_number']:`). -/
def pyTruthyPage : Option PageVal → Bool
  | none => false
  | some (Sum.inl n) => n != 0
  | some (Sum.inr s) => !s.isEmpty

/-- The text interpolated for a page value by an f-string. -/
def pageStr : Option PageVal → Str
  | none => []
  | some (Sum.inl n) => (toString n).toList
  | some (Sum.inr s) => s

/-- A citation as carried by a content block (`chat.py`'s `Citation` shape and
the dict shape of `testing_app.py`); `none` models an absent attribute/key. -/
structure Citation where
  type : Option Str := none
  document_title : Option Str := none
  cited_text : Option Str := none
  document_index : Option Int := none
  start_char_index : Option Int := none
  end_char_index : Option Int := none
  start_page_number : Option Int := none
  end_page_number : Option Int := none
  start_block_index : Option Int := none
  end_block_index : Option Int := none
deriving Repr, DecidableEq

/-- A content block: `chat.py`'s `TextBlock` dataclass (`testing_app.py` reads
the same `text`/`citations` fields and ignores `type`). -/
structure TextBlock where
  type : Str
  text : Str
  citations : List Citation
deriving Repr, DecidableEq

/-- One deduplicated reference record of `process_claude_response`. -/
structure RefEntry where
  number : Nat
  title : Str
  cited_text : Str
  ctype : Str
  page_number : Option PageVal
deriving Repr, DecidableEq

/-- Lookup in the references dict (`ref_key in references`), modelled as the
first match in an insertion-ordered association list. -/
def lookupRef (refs : List (Str × RefEntry)) (k : Str) : Option RefEntry :=
  (refs.find? (fun p => decide (p.1 = k))).map (·.2)

/-- `testing_app.py` cited-text cleanup:
`cited_text.strip()` then `.replace('\u0002', '').strip()`. -/
def cleanCited (raw : Str) : Str :=
  pyStrip (removeSTX (pyStrip raw))

/-- The `[Page N]` extraction of `process_claude_response`: cleans the raw
cited text; when it starts with `"[Page"`, parses the digits before `]` as a
page fallback (used only when the incoming page number is falsy) and keeps
`split('\n', 2)[-1]` of the text, stripped. -/
def extractCited (raw : Str) (page0 : Option PageVal) : Str × Option PageVal :=
  let s := cleanCited raw
  if startsWithChars "[Page".toList s then
    let pm := pyReplaceDel "[Page ".toList (s.takeWhile (fun c => c != ']'))
    let page := if pyTruthyPage page0 then page0 else some (Sum.inr pm)
    (pyStrip (split2last s), page)
  else (s, page0)

/-- The document title used for a citation by `process_claude_response`:
`citation.get('document_title', f'Source {citation_counter}')`. -/
def citationTitle (ctr : Nat) (c : Citation) : Str :=
  c.document_title.getD (("Source " ++ Nat.repr ctr).toList)

/-- The cleaned cited text and page number extracted for a citation. -/
def citationCitedPage (c : Citation) : Str × Option PageVal :=
  extractCited (c.cited_text.getD []) (c.start_page_number.map Sum.inl)

/-- The ledger key `f"{doc_title}:{cited_text}"`. -/
def citationKey (ctr : Nat) (c : Citation) : Str :=
  citationTitle ctr c ++ ':' :: (citationCitedPage c).1

/-- The `if ref_key not in references` block of `process_claude_response`:
returns the updated ledger, the updated counter, and the number used. -/
def recordRef (refs : List (Str × RefEntry)) (ctr : Nat) (k title cited ctype : Str)
    (page : Option PageVal) : List (Str × RefEntry) × Nat × Nat :=
  match lookupRef refs k with
  | some e => (refs, ctr, e.number)
  | none => (refs ++ [(k, ⟨ctr, title, cited, ctype, page⟩)], ctr + 1, ctr)

/-- The sort key of `process_claude_response`:
`end_char_index or end_page_number or end_block_index or float('inf')`,
with Python `or` skipping falsy (absent or zero) values; `none` stands for
`float('inf')`. -/
def pyOrI (a b : Option Int) : Option Int :=
  match a with
  | some v => if v = 0 then b else some v
  | none => b

/-- `taKey c = none` means the key is `float('inf')`. -/
def taKey (c : Citation) : Option Int :=
  pyOrI c.end_char_index (pyOrI c.end_page_number (pyOrI c.end_block_index none))

/-- Order on sort keys, `none` being `+∞`. -/
def keyLE : Option Int → Option Int → Bool
  | _, none => true
  | none, some _ => false
  | some a, some b => decide (a ≤ b)

/-- `a` sorts no later than `b` under `sorted(..., reverse=True)`:
descending keys, ties keeping arrival order. -/
abbrev taGE (a b : Citation) : Prop := keyLE (taKey b) (taKey a) = true

/-- The `sorted(citations, key=..., reverse=True)` call of
`process_claude_response`: the stable descending sort by `taKey`. -/
def sortCitationsTA (cs : List Citation) : List Citation :=
  List.insertionSort taGE cs

/-- One iteration of the citation loop of `process_claude_response`: records
the citation in the ledger and splices ` [n]` at the per-type insertion index
of the current text. -/
def processCitation (st : Str × List (Str × RefEntry) × Nat) (c : Citation) :
    Str × List (Str × RefEntry) × Nat :=
  let txt := st.1
  let refs := st.2.1
  let ctr := st.2.2
  let title := citationTitle ctr c
  let ctype := c.type.getD "unknown".toList
  let cp := citationCitedPage c
  let r := recordRef refs ctr (citationKey ctr c) title cp.1 ctype cp.2
  let marker := (" [" ++ Nat.repr r.2.2 ++ "]").toList
  let endIdx :=
    if ctype = "char_location".toList then
      match c.end_char_index with
      | some i => sliceIdx i txt.length
      | none => txt.length
    else if ctype = "page_location".toList then txt.length
    else if ctype = "content_block_location".toList then
      match findSub cp.1 txt with
      | some i => i + cp.1.length
      | none => txt.length
    else txt.length
  (txt.take endIdx ++ marker ++ txt.drop endIdx, r.1, r.2.1)

/-- One iteration of the block loop of `process_claude_response`: a block
without citations contributes its raw text; otherwise the sorted citations
are spliced into the block text one by one. -/
def processBlockTA (st : List (Str × RefEntry) × Nat) (b : TextBlock) :
    Str × List (Str × RefEntry) × Nat :=
  if b.citations.isEmpty then (b.text, st.1, st.2)
  else (sortCitationsTA b.citations).foldl processCitation (b.text, st.1, st.2)

/-- The block loop of `process_claude_response`, threading the ledger and
concatenating the per-block contributions (no separator between blocks). -/
def processBlocksGo (st : List (Str × RefEntry) × Nat) :
    List TextBlock → Str × List (Str × RefEntry) × Nat
  | [] => ([], st.1, st.2)
  | b :: rest =>
    let r := processBlockTA st b
    let r2 := processBlocksGo (r.2.1, r.2.2) rest
    (r.1 ++ r2.1, r2.2.1, r2.2.2)

/-- Ascending order on ledger entries by reference number (the
`sorted(references.items(), key=lambda x: x[1]['number'])` call). -/
abbrev refNumLE (p q : Str × RefEntry) : Prop := p.2.number ≤ q.2.number

/-- One rendered reference line:
`"[{n}] {title}"`, plus `: "{text}"` for truthy cleaned text (whitespace
collapsed, truncated past 150 characters), plus ` (Page {p})` for a truthy
page value. -/
def renderEntry (e : RefEntry) : Str :=
  let base := ("[" ++ Nat.repr e.number ++ "] ").toList ++ e.title
  let base :=
    if e.cited_text.isEmpty then base
    else
      let ct := normSpaces e.cited_text
      let ct := if 150 < ct.length then ct.take 147 ++ "...".toList else ct
      base ++ ": \"".toList ++ ct ++ ['\"']
  if pyTruthyPage e.page_number then
    base ++ " (Page ".toList ++ pageStr e.page_number ++ [')']
  else base

/-- The references loop: entries sorted by number, each followed by a blank
line. -/
def renderRefs (refs : List (Str × RefEntry)) : Str :=
  (List.insertionSort refNumLE refs).foldl
    (fun acc p => acc ++ renderEntry p.2 ++ "\n\n".toList) []

/-- `process_claude_response` of `testing_app.py`, applied to the content
blocks of the response: the batch formatter. -/
def process_claude_response (blocks : List TextBlock) : Str :=
  let r := processBlocksGo ([], 1) blocks
  if r.2.1.isEmpty then r.1
  else r.1 ++ "\n\n**References**\n\n".toList ++ renderRefs r.2.1

/-- The `key=lambda x: getattr(x, 'start_char_index', 0)` sort key of
`ClaudeClient.format_citations` in `chat.py`. -/
def chatSortKey (c : Citation) : Int := c.start_char_index.getD 0

/-- Descending-with-stable-ties order for `format_citations`'s
`sorted(..., reverse=True)`. -/
abbrev chatGE (a b : Citation) : Prop := chatSortKey b ≤ chatSortKey a

/-- The citation sort of `format_citations`. -/
def sortCitationsChat (cs : List Citation) : List Citation :=
  List.insertionSort chatGE cs

/-- One marker insertion of `format_citations`: splices ` [{doc_title}]` at
`end_char_index` (end of the current text when absent). -/
def applyCitationChat (txt : Str) (c : Citation) : Str :=
  let idx := c.document_index.getD 0
  let title := c.document_title.getD (("Source " ++ toString (idx + 1)).toList)
  let endIdx :=
    match c.end_char_index with
    | some i => sliceIdx i txt.length
    | none => txt.length
  txt.take endIdx ++ " [".toList ++ title ++ [']'] ++ txt.drop endIdx

/-- The `cited_docs` accumulation of `format_citations`: first title and
stripped cited text per document index, in first-seen order. -/
def addCitedDoc (acc : List (Int × Str × Str)) (c : Citation) : List (Int × Str × Str) :=
  let idx := c.document_index.getD 0
  if (acc.find? (fun p => decide (p.1 = idx))).isSome then acc
  else
    acc ++ [(idx, c.document_title.getD (("Source " ++ toString (idx + 1)).toList),
             pyStrip (c.cited_text.getD []))]

/-- Ascending order on cited-doc records by document index
(`sorted(cited_docs.items())`). -/
abbrev docIdxLE (p q : Int × Str × Str) : Prop := p.1 ≤ q.1

/-- The per-block body of `format_citations`: raw text for a block without
citations; otherwise markers applied in sorted order followed by a per-block
`**References:**` section listing each cited document once. -/
def formatBlockChat (b : TextBlock) : Str :=
  if b.citations.isEmpty then b.text
  else
    let t := (sortCitationsChat b.citations).foldl applyCitationChat b.text
    let t := t ++ "\n\n**References:**".toList
    (List.insertionSort docIdxLE (b.citations.foldl addCitedDoc [])).foldl
      (fun acc p => acc ++ '\n' :: p.2.1 ++ ": \"".toList ++ p.2.2 ++ ['\"']) t

/-- `ClaudeClient.format_citations` of `chat.py`: formats the text blocks
(non-text blocks are skipped) and joins them with blank lines. -/
def format_citations (blocks : List TextBlock) : Str :=
  List.intercalate "\n\n".toList
    ((blocks.filter (fun b => decide (b.type = "text".toList))).map formatBlockChat)

/-- A streaming chunk as consumed by `handle_streaming_response` in `app.py`. -/
inductive SChunk where
  | message_start
  | content_block_start
  | text_delta (t : Str)
  | citations_delta (c : Citation)
  | content_block_stop
  | message_stop
deriving Repr, DecidableEq

/-- The mutable state of `handle_streaming_response`: the open block's raw
text and citations, and the list of rendered block texts. -/
structure SState where
  current_text : Str
  current_citations : List Citation
  text_blocks : List Str
deriving Repr, DecidableEq

/-- The throwaway `type('TextBlock', (), {...})` block the streaming handler
synthesizes from the open block's accumulated raw text and citations. -/
def mkContentBlock (txt : Str) (cs : List Citation) : TextBlock :=
  ⟨"text".toList, txt, cs⟩

/-- Python `text_blocks[-1] = v`: fails (`none`) on an empty list. -/
def setLastBlock (l : List Str) (v : Str) : Option (List Str) :=
  match l with
  | [] => none
  | _ :: _ => some (l.dropLast ++ [v])

/-- The streaming re-derivation step: recompute the last rendered block from
the open block's raw text and citations via `format_citations`, leaving the
raw accumulators untouched. -/
def rederiveBlock (s : SState) : Option SState :=
  (setLastBlock s.text_blocks
      (format_citations [mkContentBlock s.current_text s.current_citations])).map
    (fun tb => ⟨s.current_text, s.current_citations, tb⟩)

/-- One event transition of `handle_streaming_response` (with
`has_sources`), excluding the loop-breaking `message_stop`. -/
def stepChunk (has_sources : Bool) (s : SState) : SChunk → Option SState
  | .message_start => some s
  | .content_block_start => some ⟨[], [], s.text_blocks ++ [[]]⟩
  | .text_delta t =>
    let ct := s.current_text ++ t
    if has_sources then rederiveBlock ⟨ct, s.current_citations, s.text_blocks⟩
    else (setLastBlock s.text_blocks ct).map (fun tb => ⟨ct, s.current_citations, tb⟩)
  | .citations_delta c =>
    let s' : SState := ⟨s.current_text, s.current_citations ++ [c], s.text_blocks⟩
    if has_sources then rederiveBlock s' else some s'
  | .content_block_stop =>
    if s.current_text ≠ [] ∧
        (s.text_blocks = [] ∨ ¬ s.text_blocks.getLast? = some s.current_text) then
      let ft := if has_sources then
          format_citations [mkContentBlock s.current_text s.current_citations]
        else s.current_text
      some ⟨s.current_text, s.current_citations, s.text_blocks ++ [ft]⟩
    else some s
  | .message_stop => some s

/-- The event loop of `handle_streaming_response`; `message_stop` breaks. -/
def runStream (has_sources : Bool) : SState → List SChunk → Option SState
  | s, [] => some s
  | s, SChunk.message_stop :: _ => some s
  | s, ch :: rest => (stepChunk has_sources s ch).bind (fun s' => runStream has_sources s' rest)

/-- `handle_streaming_response` of `app.py`: runs the event loop from the
empty state and returns `"\n\n".join(text_blocks)`. -/
def handle_streaming_response (evts : List SChunk) (has_sources : Bool) : Option Str :=
  (runStream has_sources ⟨[], [], []⟩ evts).map
    (fun s => List.intercalate "\n\n".toList s.text_blocks)

/-- Ledger well-formedness: entry numbers are `1, 2, …, n` in insertion
order and the counter holds the next free number. -/
def RefsInv (refs : List (Str × RefEntry)) (ctr : Nat) : Prop :=
  refs.map (fun p => p.2.number) = List.range' 1 refs.length ∧ ctr = refs.length + 1

/-- The char-offset citation of the spec's end-to-end example. -/
def c3Cit : Citation :=
  { type := some "char_location".toList,
    document_title := some "Policy".toList,
    cited_text := some "3 days per week".toList,
    start_char_index := some 0,
    end_char_index := some 22 }

/-- The content block of the spec's end-to-end example. -/
def c3Block : TextBlock :=
  ⟨"text".toList, "Remote work is allowed.".toList, [c3Cit]⟩

/-- Same citation data as `c3Cit`, for the batch/streaming comparison. -/
def c1Cit : Citation :=
  { type := some "char_location".toList,
    document_title := some "Policy".toList,
    cited_text := some "3 days per week".toList,
    start_char_index := some 0,
    end_char_index := some 22 }

/-- The raw block text delivered to both modes. -/
def c1Text : Str := "Remote work is allowed.".toList

/-- The streaming event sequence delivering exactly the one block of
`c1Text` with citation `c1Cit`. -/
def c1Evts : List SChunk :=
  [SChunk.message_start, SChunk.content_block_start, SChunk.text_delta c1Text,
   SChunk.citations_delta c1Cit, SChunk.content_block_stop, SChunk.message_stop]

/-- A page citation whose `end_page_number` is 3 (its only location field). -/
def c2PageCit : Citation :=
  { type := some "page_location".toList,
    document_title := some "P".toList,
    cited_text := some "p".toList,
    end_page_number := some 3 }

/-- A char citation ending at offset 7. -/
def c2CharCit : Citation :=
  { type := some "char_location".toList,
    document_title := some "C".toList,
    cited_text := some "c".toList,
    end_char_index := some 7 }

/-- Ten characters of text carrying the two citations above, page first. -/
def c2Block : TextBlock :=
  ⟨"text".toList, "ABCDEFGHIJ".toList, [c2PageCit, c2CharCit]⟩

/-- Title `"X:Y"`, cited text `"Z"`. -/
def c4Cit1 : Citation :=
  { document_title := some "X:Y".toList, cited_text := some "Z".toList }

/-- Title `"X"`, cited text `"Y:Z"` — a distinct pair whose concatenated
ledger key collides with `c4Cit1`'s. -/
def c4Cit2 : Citation :=
  { document_title := some "X".toList, cited_text := some "Y:Z".toList }

/-- A block carrying the two colliding citations. -/
def c4Block : TextBlock := ⟨"text".toList, "AB".toList, [c4Cit1, c4Cit2]⟩

/-- A titled citation processed first. -/
def c6Titled : Citation :=
  { document_title := some "T".toList, cited_text := some "a".toList }

/-- A citation with no title, from document index 0. -/
def c6Untitled : Citation :=
  { cited_text := some "b".toList, document_index := some 0 }

/-- A block whose second citation lacks a document title. -/
def c6Block : TextBlock := ⟨"text".toList, "Hello".toList, [c6Titled, c6Untitled]⟩

/-- A citation whose cited text is a `[Page 3]` marker line followed by two
content lines. -/
def c7Cit : Citation :=
  { document_title := some "D".toList,
    cited_text := some "[Page 3]\nA\nB".toList }

/-- A block carrying `c7Cit`. -/
def c7Block : TextBlock := ⟨"text".toList, "T".toList, [c7Cit]⟩

/-- A content-block citation whose raw cited text `" Y "` does not occur in
the block text `"Y Z"`, but whose stripped form `"Y"` does. -/
def c8Cit : Citation :=
  { type := some "content_block_location".toList,
    document_title := some "D".toList,
    cited_text := some " Y ".toList }

/-- A block carrying `c8Cit`. -/
def c8Block : TextBlock := ⟨"text".toList, "Y Z".toList, [c8Cit]⟩

theorem keyLE_total (x y : Option Int) : keyLE x y = true ∨ keyLE y x = true := by
  cases x <;> cases y <;> simp [keyLE]
  exact Int.le_total _ _

theorem keyLE_trans {x y z : Option Int} (h1 : keyLE x y = true) (h2 : keyLE y z = true) :
    keyLE x z = true := by
  cases x <;> cases y <;> cases z <;> simp_all [keyLE]
  omega

instance : IsTotal Citation taGE := ⟨fun a b => keyLE_total (taKey b) (taKey a)⟩

instance : IsTrans Citation taGE := ⟨fun _ _ _ hab hbc => keyLE_trans hbc hab⟩

/-- C2: the spec's claimed derived sort key is refuted on a block
`"ABCDEFGHIJ"` (length 10) carrying a page citation (claimed key
`len(blockText) = 10`) and a char citation with `endChar = 7`: the claim
requires the page citation to be processed first and the output
`"ABCDEFG [2]HIJ [1]…"`, but the code sorts by
`end_char_index or end_page_number or end_block_index or inf`, giving the
page citation key 3, processing the char citation first, and producing
`"ABCDEFG [1]HIJ [2]…"` with the markers numbered the other way around. -/
theorem C2_counterexample :
    sortCitationsTA [c2PageCit, c2CharCit] = [c2CharCit, c2PageCit] ∧
    process_claude_response [c2Block] =
      ("ABCDEFG [1]HIJ [2]\n\n**References**\n\n[1] C: \"c\"\n\n[2] P: \"p\"\n\n").toList := by
  decide

/-- C2 (amended): before any insertion the code sorts the block's citations
into a stable descending order by the key
`end_char_index or end_page_number or end_block_index or float('inf')`
(Python `or`, skipping absent or zero fields), and then processes them in
that order; the sorted sequence is a permutation of the arrival sequence and
is pairwise descending under that key. -/
theorem C2_theorem (cs : List Citation) :
    (sortCitationsTA cs).Perm cs ∧ List.Sorted taGE (sortCitationsTA cs) :=
  ⟨List.perm_insertionSort taGE cs, List.sorted_insertionSort taGE cs⟩

/-- C3: formatting the single block `"Remote work is allowed."` with the one
char-offset citation `(documentTitle "Policy", citedText "3 days per week",
startChar 0, endChar 22)` yields the body `"Remote work is allowed [1]."`
followed by a references section whose single entry is
`[1] Policy: "3 days per week"`. -/
theorem C3_theorem :
    process_claude_response [c3Block] =
      ("Remote work is allowed [1].\n\n**References**\n\n[1] Policy: \"3 days per week\"\n\n").toList := by
  decide

/-- C1: the final rendered text is not identical in the two delivery modes:
for the block of `c1Text`/`c1Cit`, delivered once as a batch content block
and once as the equivalent streaming event sequence, the streaming output
differs from the batch output. -/
theorem C1_counterexample :
    handle_streaming_response c1Evts true ≠
      some (process_claude_response [⟨"text".toList, c1Text, [c1Cit]⟩]) := by
  decide

/-- C1 (amended): there is no shared placement routine. The streaming handler
delegates each re-derivation to `ClaudeClient.format_citations`, which inserts
bracketed-title markers and a per-block `**References:**` section (and the
handler's `content_block_stop` branch appends the already-rendered block a
second time), while the batch formatter `process_claude_response` inserts
numbered ` [n]` markers with a response-wide `**References**` section; on the
same single-block response the two modes render different text. -/
theorem C1_theorem :
    handle_streaming_response c1Evts true =
      some (format_citations [mkContentBlock c1Text [c1Cit]] ++ "\n\n".toList ++
        format_citations [mkContentBlock c1Text [c1Cit]]) ∧
    format_citations [mkContentBlock c1Text [c1Cit]] =
      ("Remote work is allowed [Policy].\n\n**References:**\nPolicy: \"3 days per week\"").toList ∧
    process_claude_response [⟨"text".toList, c1Text, [c1Cit]⟩] =
      ("Remote work is allowed [1].\n\n**References**\n\n[1] Policy: \"3 days per week\"\n\n").toList := by
  refine ⟨?_, ?_, ?_⟩ <;> decide

theorem range'_one_snoc (s n : Nat) : List.range' s (n + 1) = List.range' s n ++ [s + n] := by
  induction n generalizing s with
  | zero => simp [List.range']
  | succ n ih =>
    rw [List.range'_succ, ih (s + 1), ← List.cons_append, ← List.range'_succ]
    have h : s + 1 + n = s + (n + 1) := by omega
    rw [h]

theorem processCitation_refs_eq (st : Str × List (Str × RefEntry) × Nat) (c : Citation) :
    (processCitation st c).2.1 =
      (recordRef st.2.1 st.2.2 (citationKey st.2.2 c) (citationTitle st.2.2 c)
        (citationCitedPage c).1 (c.type.getD "unknown".toList) (citationCitedPage c).2).1 :=
  rfl

theorem processCitation_ctr_eq (st : Str × List (Str × RefEntry) × Nat) (c : Citation) :
    (processCitation st c).2.2 =
      (recordRef st.2.1 st.2.2 (citationKey st.2.2 c) (citationTitle st.2.2 c)
        (citationCitedPage c).1 (c.type.getD "unknown".toList) (citationCitedPage c).2).2.1 :=
  rfl

theorem recordRef_cases (refs : List (Str × RefEntry)) (ctr : Nat) (k t c ty : Str)
    (pg : Option PageVal) :
    (recordRef refs ctr k t c ty pg).1 = refs ∨
      (recordRef refs ctr k t c ty pg).1 = refs ++ [(k, ⟨ctr, t, c, ty, pg⟩)] := by
  unfold recordRef
  cases h : lookupRef refs k <;> simp

/-- C4: refuted by ledger-key collision. The two citations of `c4Block` carry
the distinct identity pairs `("X:Y", "Z")` and `("X", "Y:Z")`, yet both map to
the concatenated string key `"X:Y:Z"`, so the second record returns the first
record's number 1 instead of the next sequential number 2: both markers read
`[1]` and the references section has a single entry. -/
theorem C4_counterexample :
    c4Cit1.document_title ≠ c4Cit2.document_title ∧
    process_claude_response [c4Block] =
      ("AB [1] [1]\n\n**References**\n\n[1] X:Y: \"Z\"\n\n").toList := by
  decide

/-- C4 (amended): within one formatting call, recording a fresh *string* key
`f"{title}:{citedText}"` allocates the next sequential number from the
ledger-wide counter starting at 1 (first-seen order), preserves the ledger
numbering invariant, leaves exactly one ledger entry under that key, and a
second record of the same string key — whatever other data it carries —
returns the same number and leaves the ledger unchanged. (Distinct
`(title, citedText)` pairs, however, are deduplicated only up to the
concatenated string key, as the counterexample shows.) -/
theorem C4_theorem (refs : List (Str × RefEntry)) (ctr : Nat)
    (k title cited ctype : Str) (page : Option PageVal)
    (title' cited' ctype' : Str) (page' : Option PageVal)
    (hinv : RefsInv refs ctr) (hfresh : lookupRef refs k = none) :
    (recordRef refs ctr k title cited ctype page).2.2 = refs.length + 1 ∧
    RefsInv (recordRef refs ctr k title cited ctype page).1
      (recordRef refs ctr k title cited ctype page).2.1 ∧
    recordRef (recordRef refs ctr k title cited ctype page).1
        (recordRef refs ctr k title cited ctype page).2.1 k title' cited' ctype' page' =
      ((recordRef refs ctr k title cited ctype page).1,
        (recordRef refs ctr k title cited ctype page).2.1, refs.length + 1) ∧
    (recordRef refs ctr k title cited ctype page).1.countP (fun p => decide (p.1 = k)) = 1 := by
  obtain ⟨hnum, hctr⟩ := hinv
  have hfind : refs.find? (fun p => decide (p.1 = k)) = none := by
    unfold lookupRef at hfresh
    exact Option.map_eq_none'.mp hfresh
  have hmiss : recordRef refs ctr k title cited ctype page =
      (refs ++ [(k, ⟨ctr, title, cited, ctype, page⟩)], ctr + 1, ctr) := by
    unfold recordRef lookupRef
    rw [hfind]
    rfl
  subst hctr
  refine ⟨by rw [hmiss], ⟨?_, ?_⟩, ?_, ?_⟩
  · rw [hmiss]
    simp only [List.map_append, hnum, List.length_append, List.map_cons, List.map_nil,
      List.length_cons, List.length_nil]
    rw [range'_one_snoc]
    simp
    omega
  · rw [hmiss]
    simp
  · rw [hmiss]
    unfold recordRef lookupRef
    rw [List.find?_append, hfind]
    simp
  · rw [hmiss]
    rw [List.countP_append]
    have h0 : refs.countP (fun p => decide (p.1 = k)) = 0 :=
      List.countP_eq_zero.mpr (List.find?_eq_none.mp hfind)
    rw [h0]
    simp

/-- C4 witness: recording a fresh key on the empty ledger (counter 1) returns
number 1. -/
theorem C4_witness :
    (recordRef [] 1 "D:x".toList "D".toList "x".toList "unknown".toList none).2.2 = 1 :=
  (C4_theorem [] 1 "D:x".toList "D".toList "x".toList "unknown".toList none
    "E".toList "y".toList "page_location".toList none ⟨rfl, rfl⟩ rfl).1

/-- C10: once an entry exists for a citation's ledger key, processing another
citation with that key leaves ledger and counter entirely unchanged — the
duplicate's own title, cited text, type and page data are discarded — and the
marker spliced into the text carries the stored entry's first-seen number. -/
theorem C10_theorem (txt : Str) (refs : List (Str × RefEntry)) (ctr : Nat) (c : Citation)
    (e : RefEntry) (hit : lookupRef refs (citationKey ctr c) = some e) :
    (processCitation (txt, refs, ctr) c).2.1 = refs ∧
    (processCitation (txt, refs, ctr) c).2.2 = ctr ∧
    ∃ i, (processCitation (txt, refs, ctr) c).1 =
      txt.take i ++ (" [" ++ Nat.repr e.number ++ "]").toList ++ txt.drop i := by
  have hr : recordRef refs ctr (citationKey ctr c) (citationTitle ctr c)
      (citationCitedPage c).1 (c.type.getD "unknown".toList) (citationCitedPage c).2 =
      (refs, ctr, e.number) := by
    unfold recordRef
    rw [hit]
  refine ⟨?_, ?_, ?_⟩
  · rw [processCitation_refs_eq, hr]
  · rw [processCitation_ctr_eq, hr]
  · simp only [processCitation, hr]
    exact ⟨_, rfl⟩

/-- C10 witness: re-recording the key `"T:a"` (this time carrying page 9)
against a ledger already holding it leaves the ledger unchanged. -/
theorem C10_witness :
    (processCitation ("Hi".toList,
        [("T:a".toList, ⟨1, "T".toList, "a".toList, "unknown".toList, none⟩)], 2)
        { document_title := some "T".toList, cited_text := some "a".toList,
          start_page_number := some 9 }).2.1 =
      [("T:a".toList, ⟨1, "T".toList, "a".toList, "unknown".toList, none⟩)] :=
  ( C10_theorem "Hi".toList
    [("T:a".toList, ⟨1, "T".toList, "a".toList, "unknown".toList, none⟩)] 2
    { document_title := some "T".toList, cited_text := some "a".toList,
      start_page_number := some 9 }
    ⟨1, "T".toList, "a".toList, "unknown".toList, none⟩ (by decide)).1

/-- C6: refuted on the default title. In `c6Block` the second citation has no
`document_title` and comes from document index 0, so the claimed default is
`"Source 1"`; but the code substitutes `f'Source {citation_counter}'`, and the
counter is already 2 when that citation is processed, so the stored title and
rendered entry read `"Source 2"`. (The end-of-text insertion and the normal
return do happen.) -/
theorem C6_counterexample :
    c6Untitled.document_index = some 0 ∧
    process_claude_response [c6Block] =
      ("Hello [1] [2]\n\n**References**\n\n[1] T: \"a\"\n\n[2] Source 2: \"b\"\n\n").toList := by
  decide

/-- C6 (amended): a citation missing its fields is handled without failure by
substituting defaults — but the default document title is
`"Source {citation_counter}"`, the current reference-counter value, not
`"Source {documentIndex+1}"`: with no title, no type and a fresh key, the
formatter records an entry titled `Source ctr` and splices the marker at the
very end of the current text, returning normally. -/
theorem C6_theorem (txt : Str) (refs : List (Str × RefEntry)) (ctr : Nat) (c : Citation)
    (htitle : c.document_title = none) (htype : c.type = none)
    (hfresh : lookupRef refs (citationKey ctr c) = none) :
    processCitation (txt, refs, ctr) c =
      (txt ++ (" [" ++ Nat.repr ctr ++ "]").toList,
       refs ++ [(citationKey ctr c,
         ⟨ctr, ("Source " ++ Nat.repr ctr).toList, (citationCitedPage c).1,
          "unknown".toList, (citationCitedPage c).2⟩)],
       ctr + 1) := by
  have ht : citationTitle ctr c = ("Source " ++ Nat.repr ctr).toList := by
    simp [citationTitle, htitle]
  have hfind : refs.find? (fun p => decide (p.1 = citationKey ctr c)) = none := by
    unfold lookupRef at hfresh
    exact Option.map_eq_none'.mp hfresh
  have hmiss : recordRef refs ctr (citationKey ctr c) (citationTitle ctr c)
      (citationCitedPage c).1 (c.type.getD "unknown".toList) (citationCitedPage c).2 =
      (refs ++ [(citationKey ctr c,
        ⟨ctr, citationTitle ctr c, (citationCitedPage c).1,
         c.type.getD "unknown".toList, (citationCitedPage c).2⟩)], ctr + 1, ctr) := by
    unfold recordRef lookupRef
    rw [hfind]
    rfl
  simp only [processCitation]
  rw [hmiss]
  simp only [htype, Option.getD_none, ht]
  rw [if_neg (by decide), if_neg (by decide), if_neg (by decide)]
  simp

/-- C6 witness: a citation with no title and no type, against the empty
ledger, is formatted with title `Source 1` and an end-of-text marker. -/
theorem C6_witness :
    processCitation ("Hi".toList, [], 1) { cited_text := some "b".toList } =
      ("Hi".toList ++ (" [" ++ Nat.repr 1 ++ "]").toList,
       [(citationKey 1 { cited_text := some "b".toList },
         ⟨1, ("Source " ++ Nat.repr 1).toList,
          (citationCitedPage { cited_text := some "b".toList }).1,
          "unknown".toList,
          (citationCitedPage { cited_text := some "b".toList }).2⟩)],
       1 + 1) :=
  C6_theorem "Hi".toList [] 1 { cited_text := some "b".toList } rfl rfl rfl

/-- C8: refuted as universally stated. The citation `c8Cit` has
`citedText = " Y "`, which does not occur verbatim in the block text
`"Y Z"`; yet its marker is not inserted at the very end, because the lookup
uses the *stripped* cited text `"Y"`, which is found at offset 0, so the
body reads `"Y [1] Z"`. -/
theorem C8_counterexample :
    findSub " Y ".toList "Y Z".toList = none ∧
    process_claude_response [c8Block] =
      ("Y [1] Z\n\n**References**\n\n[1] D: \"Y\"\n\n").toList := by
  decide

/-- C8 (amended): a `content_block_location` citation whose *cleaned* cited
text (stripped of whitespace, control characters and a leading page-marker
line) does not occur in the current block text never fails: its marker is
appended at the very end of the current text. -/
theorem C8_theorem (txt : Str) (refs : List (Str × RefEntry)) (ctr : Nat) (c : Citation)
    (htype : c.type = some "content_block_location".toList)
    (hnotfound : findSub (citationCitedPage c).1 txt = none) :
    ∃ n, (processCitation (txt, refs, ctr) c).1 =
      txt ++ (" [" ++ Nat.repr n ++ "]").toList := by
  simp only [processCitation, htype, Option.getD_some]
  rw [if_neg (by decide), if_neg (by decide)]
  rw [hnotfound]
  simp only [if_true, List.take_length, List.drop_length, List.append_nil]
  exact ⟨_, rfl⟩

/-- C8 witness: the fallback on `c8Cit`-like data with cited text absent from
the block text `"AB"`. -/
theorem C8_witness :
    ∃ n, (processCitation ("AB".toList, [], 1)
        { type := some "content_block_location".toList,
          document_title := some "D".toList, cited_text := some "q".toList }).1 =
      "AB".toList ++ (" [" ++ Nat.repr n ++ "]").toList :=
  C8_theorem "AB".toList [] 1
    { type := some "content_block_location".toList,
      document_title := some "D".toList, cited_text := some "q".toList }
    rfl (by decide)

theorem processCitation_refs_extend (st : Str × List (Str × RefEntry) × Nat) (c : Citation) :
    ∃ ext, (processCitation st c).2.1 = st.2.1 ++ ext := by
  rw [processCitation_refs_eq]
  rcases recordRef_cases st.2.1 st.2.2 (citationKey st.2.2 c) (citationTitle st.2.2 c)
    (citationCitedPage c).1 (c.type.getD "unknown".toList) (citationCitedPage c).2 with h | h
  · exact ⟨[], by rw [h]; simp⟩
  · exact ⟨_, h⟩

theorem processCitation_refs_ne_nil (st : Str × List (Str × RefEntry) × Nat) (c : Citation) :
    (processCitation st c).2.1 ≠ [] := by
  rw [processCitation_refs_eq]
  cases h : lookupRef st.2.1 (citationKey st.2.2 c) with
  | none => simp [recordRef, h]
  | some e =>
    simp only [recordRef, h]
    intro hnil
    unfold lookupRef at h
    rcases Option.map_eq_some'.mp h with ⟨p, hp, _⟩
    have hm := List.mem_of_find?_eq_some hp
    rw [hnil] at hm
    exact absurd hm (List.not_mem_nil p)

theorem foldl_processCitation_extend (cs : List Citation) :
    ∀ st : Str × List (Str × RefEntry) × Nat,
      ∃ ext, (cs.foldl processCitation st).2.1 = st.2.1 ++ ext := by
  induction cs with
  | nil => exact fun st => ⟨[], by simp⟩
  | cons c cs ih =>
    intro st
    rw [List.foldl_cons]
    obtain ⟨e2, h2⟩ := ih (processCitation st c)
    obtain ⟨e1, h1⟩ := processCitation_refs_extend st c
    exact ⟨e1 ++ e2, by rw [h2, h1, List.append_assoc]⟩

theorem foldl_processCitation_ne_nil (cs : List Citation)
    (st : Str × List (Str × RefEntry) × Nat) (h : cs ≠ []) :
    (cs.foldl processCitation st).2.1 ≠ [] := by
  cases cs with
  | nil => exact absurd rfl h
  | cons c cs =>
    rw [List.foldl_cons]
    obtain ⟨ext, hext⟩ := foldl_processCitation_extend cs (processCitation st c)
    rw [hext]
    intro hnil
    exact processCitation_refs_ne_nil st c (List.append_eq_nil.mp hnil).1

theorem processBlockTA_refs_extend (st : List (Str × RefEntry) × Nat) (b : TextBlock) :
    ∃ ext, (processBlockTA st b).2.1 = st.1 ++ ext := by
  unfold processBlockTA
  by_cases h : b.citations.isEmpty
  · rw [if_pos h]
    exact ⟨[], by simp⟩
  · rw [if_neg h]
    exact foldl_processCitation_extend (sortCitationsTA b.citations) (b.text, st.1, st.2)

theorem sortCitationsTA_ne_nil {cs : List Citation} (h : cs ≠ []) :
    sortCitationsTA cs ≠ [] := by
  intro hs
  apply h
  have hp : List.Perm (sortCitationsTA cs) cs := List.perm_insertionSort taGE cs
  rw [hs] at hp
  exact hp.symm.eq_nil

theorem processBlockTA_refs_ne_nil (st : List (Str × RefEntry) × Nat) (b : TextBlock)
    (h : b.citations ≠ []) : (processBlockTA st b).2.1 ≠ [] := by
  unfold processBlockTA
  rw [if_neg (by simpa using h)]
  exact foldl_processCitation_ne_nil _ _ (sortCitationsTA_ne_nil h)

theorem processBlocksGo_refs_extend (blocks : List TextBlock) :
    ∀ st : List (Str × RefEntry) × Nat,
      ∃ ext, (processBlocksGo st blocks).2.1 = st.1 ++ ext := by
  induction blocks with
  | nil => exact fun st => ⟨[], by simp [processBlocksGo]⟩
  | cons b rest ih =>
    intro st
    obtain ⟨e1, h1⟩ := processBlockTA_refs_extend st b
    obtain ⟨e2, h2⟩ := ih ((processBlockTA st b).2.1, (processBlockTA st b).2.2)
    refine ⟨e1 ++ e2, ?_⟩
    simp only [processBlocksGo]
    rw [h2]
    rw [h1, List.append_assoc]

theorem processBlocksGo_refs_ne_nil (blocks : List TextBlock) :
    ∀ st : List (Str × RefEntry) × Nat, (∃ b ∈ blocks, b.citations ≠ []) →
      (processBlocksGo st blocks).2.1 ≠ [] := by
  induction blocks with
  | nil =>
    rintro st ⟨b, hb, _⟩
    exact absurd hb (List.not_mem_nil b)
  | cons b rest ih =>
    rintro st ⟨b0, hb0, hc⟩
    simp only [processBlocksGo]
    rcases List.mem_cons.mp hb0 with rfl | hmem
    · obtain ⟨e2, h2⟩ :=
        processBlocksGo_refs_extend rest ((processBlockTA st b0).2.1, (processBlockTA st b0).2.2)
      simp only at h2
      rw [h2]
      intro hnil
      exact processBlockTA_refs_ne_nil st b0 hc (List.append_eq_nil.mp hnil).1
    · exact ih _ ⟨b0, hmem, hc⟩

theorem processBlocksGo_all_empty (blocks : List TextBlock) :
    ∀ st : List (Str × RefEntry) × Nat, (∀ b ∈ blocks, b.citations = []) →
      processBlocksGo st blocks = ((blocks.map TextBlock.text).flatten, st.1, st.2) := by
  induction blocks with
  | nil => intro st _; simp [processBlocksGo]
  | cons b rest ih =>
    intro st h
    have hb : b.citations = [] := h b (List.mem_cons_self b rest)
    have hblk : processBlockTA st b = (b.text, st.1, st.2) := by
      simp [processBlockTA, hb]
    simp only [processBlocksGo, hblk]
    rw [ih (st.1, st.2) (fun b' hb' => h b' (List.mem_cons_of_mem b hb'))]
    simp

/-- C5: refuted on block concatenation. Two citation-free blocks `"A"` and
`"B"` are concatenated with no separator at all: the batch formatter returns
`"AB"`, not the claimed `"A\n\nB"`. -/
theorem C5_counterexample :
    process_claude_response [⟨"text".toList, "A".toList, []⟩, ⟨"text".toList, "B".toList, []⟩] =
      "AB".toList ∧
    ("AB".toList : Str) ≠ "A\n\nB".toList := by
  decide

/-- C5 (amended): the batch formatter concatenates the per-block
contributions directly, with no separator between consecutive blocks; when no
block carries a citation the output is exactly the concatenation of the raw
block texts with no references section, and when some block carries a
citation the ledger ends non-empty and the output is the concatenated body
followed by the `"\n\n**References**\n\n"` header and the rendered entries
(each followed by a blank line). -/
theorem C5_theorem (blocks : List TextBlock) :
    ((∀ b ∈ blocks, b.citations = []) →
      process_claude_response blocks = (blocks.map TextBlock.text).flatten) ∧
    ((∃ b ∈ blocks, b.citations ≠ []) →
      ∃ body refs ctr, processBlocksGo ([], 1) blocks = (body, refs, ctr) ∧ refs ≠ [] ∧
        process_claude_response blocks =
          body ++ "\n\n**References**\n\n".toList ++ renderRefs refs) := by
  constructor
  · intro h
    unfold process_claude_response
    rw [processBlocksGo_all_empty blocks ([], 1) h]
    simp
  · intro h
    have hne := processBlocksGo_refs_ne_nil blocks ([], 1) h
    refine ⟨(processBlocksGo ([], 1) blocks).1, (processBlocksGo ([], 1) blocks).2.1,
      (processBlocksGo ([], 1) blocks).2.2, rfl, hne, ?_⟩
    unfold process_claude_response
    rw [if_neg (by simpa using hne)]

/-- C5 witness: a single citation-free block passes through unchanged with no
references section. -/
theorem C5_witness :
    process_claude_response [⟨"text".toList, "A".toList, []⟩] =
      ([⟨"text".toList, "A".toList, []⟩].map TextBlock.text).flatten :=
  ( C5_theorem [⟨"text".toList, "A".toList, []⟩]).1 (by simp)

theorem afterNL_of_not_mem {l : Str} (h : '\n' ∉ l) : afterNL l = none := by
  induction l with
  | nil => rfl
  | cons c t ih =>
    rw [List.mem_cons, not_or] at h
    simp only [afterNL]
    rw [if_neg (fun hh => h.1 hh.symm)]
    exact ih h.2

theorem afterNL_append {l r : Str} (h : '\n' ∉ l) : afterNL (l ++ '\n' :: r) = some r := by
  induction l with
  | nil => simp [afterNL]
  | cons c t ih =>
    rw [List.mem_cons, not_or] at h
    simp only [List.cons_append, afterNL]
    rw [if_neg (fun hh => h.1 hh.symm)]
    exact ih h.2

/-- C7: refuted on the dropped lines. For the citation `c7Cit`, whose raw
cited text is `"[Page 3]\nA\nB"` (marker line plus two content lines, no
caller page number), the code stores only `"B"`: `split('\n', 2)[-1]` drops
the marker line *and* the first content line. The claim requires the stored
text `"A\nB"`, rendered as `A B`. The page fallback `3` itself is extracted
as claimed. -/
theorem C7_counterexample :
    split2last "[Page 3]\nA\nB".toList = "B".toList ∧
    process_claude_response [c7Block] =
      ("T [1]\n\n**References**\n\n[1] D: \"B\" (Page 3)\n\n").toList := by
  decide

/-- C7 (amended): when the cleaned cited text starts with `"[Page"`, the
digits before the first `]` are extracted as a page fallback used exactly
when the caller-supplied page number is falsy; the text stored is
`split('\n', 2)[-1]` stripped — i.e. everything after the *second* newline
when at least two newlines are present (dropping the marker line and the
following line), everything after the first newline when exactly one is
present (dropping only the marker line), and the unchanged text when no
newline is present (the marker is then kept). -/
theorem C7_theorem (l1 l2 rest raw : Str) (p : Option PageVal)
    (h1 : '\n' ∉ l1) (h2 : '\n' ∉ l2)
    (hp : pyTruthyPage p = true)
    (hpage : startsWithChars "[Page".toList (cleanCited raw) = true) :
    split2last (l1 ++ '\n' :: l2 ++ '\n' :: rest) = rest ∧
    split2last (l1 ++ '\n' :: l2) = l2 ∧
    split2last l1 = l1 ∧
    (extractCited raw p).2 = p ∧
    (extractCited raw none).2 =
      some (Sum.inr (pyReplaceDel "[Page ".toList
        ((cleanCited raw).takeWhile (fun c => c != ']')))) ∧
    (extractCited raw p).1 = pyStrip (split2last (cleanCited raw)) := by
  refine ⟨?_, ?_, ?_, ?_, ?_, ?_⟩
  · simp [split2last, afterNL_append h1, afterNL_append h2]
  · simp [split2last, afterNL_append h1, afterNL_of_not_mem h2]
  · simp [split2last, afterNL_of_not_mem h1]
  · simp only [extractCited]
    rw [if_pos hpage, if_pos hp]
  · simp only [extractCited]
    rw [if_pos hpage, if_neg (by decide : ¬ pyTruthyPage none = true)]
  · simp only [extractCited]
    rw [if_pos hpage]

/-- C7 witness: on raw cited text `"[Page 3]\nA\nB"` with a caller-supplied
page 4, the caller's page wins and two lines are dropped. -/
theorem C7_witness :
    split2last ("x".toList ++ '\n' :: "y".toList ++ '\n' :: "z".toList) = "z".toList ∧
    split2last ("x".toList ++ '\n' :: "y".toList) = "y".toList ∧
    split2last "x".toList = "x".toList ∧
    (extractCited "[Page 3]\nA\nB".toList (some (Sum.inl 4))).2 = some (Sum.inl 4) ∧
    (extractCited "[Page 3]\nA\nB".toList none).2 =
      some (Sum.inr (pyReplaceDel "[Page ".toList
        ((cleanCited "[Page 3]\nA\nB".toList).takeWhile (fun c => c != ']')))) ∧
    (extractCited "[Page 3]\nA\nB".toList (some (Sum.inl 4))).1 =
      pyStrip (split2last (cleanCited "[Page 3]\nA\nB".toList)) :=
  C7_theorem "x".toList "y".toList "z".toList "[Page 3]\nA\nB".toList (some (Sum.inl 4))
    (by decide) (by decide) (by decide) (by decide)

/-- C9: the streaming re-derivation step is idempotent: it recomputes the
last rendered block purely from the accumulated raw text and citation
sequence (never from the previously marked-up string), so running it twice
with no new events in between yields a byte-identical state — and hence
byte-identical rendered output. -/
theorem C9_theorem (s s' : SState) (h : rederiveBlock s = some s') :
    rederiveBlock s' = some s' := by
  unfold rederiveBlock setLastBlock at h
  cases htb : s.text_blocks with
  | nil =>
    rw [htb] at h
    simp at h
  | cons x xs =>
    rw [htb] at h
    simp only [Option.map_some'] at h
    have hs' := Option.some.inj h
    subst hs'
    unfold rederiveBlock setLastBlock
    cases hdl : (x :: xs).dropLast with
    | nil => simp [hdl]
    | cons y ys =>
      simp only [hdl, List.cons_append]
      rw [← List.cons_append, List.dropLast_concat]
      rfl

/-- C9 witness: re-deriving the state obtained from one re-derivation of the
block `"hi"` with no citations reproduces it byte for byte. -/
theorem C9_witness :
    rederiveBlock ⟨"hi".toList, [], ["hi".toList]⟩ =
      some ⟨"hi".toList, [], ["hi".toList]⟩ :=
  C9_theorem ⟨"hi".toList, [], [[]]⟩ ⟨"hi".toList, [], ["hi".toList]⟩ (by decide)
